import Mathlib

/-!
# Verification of the APIClient request/retry/rate-limiting pipeline

A shallow embedding of `src/api_client.py` (classes `RateLimiter` and
`APIClient`) and proofs of the specified properties.

Modelling conventions:
* Time is modelled by `Int` (Python uses `time.time()` floats and integer
  windows/backoffs; none of the verified properties depends on fractional
  time).  The clock advances only through the modelled `time.sleep` /
  `asyncio.sleep` calls.
* The transport boundary (`aiohttp` / `requests`) is an oracle
  `att : Nat → Attempt` giving the outcome of the i-th transport call:
  either a raw response or a raised exception with its message.
* Mutation of `self.requests` is explicit state passing; `_make_request`
  is a fuel-structured loop mirroring `for attempt in range(retries + 1)`.
-/

/-- Embeds `RateLimiter` (api_client.py lines 27-34): `max_requests`,
`time_window`, and the mutable timestamp list `self.requests`. -/
structure RateLimiter where
  max_requests : Int
  time_window : Int
  requests : List Int
  deriving Repr, DecidableEq

/-- Embeds `RateLimiter.__init__` (lines 30-34): stores the two parameters
and starts with an empty request list.  The source performs no validation
whatsoever on either parameter. -/
def RateLimiter.init (max_requests time_window : Int) : RateLimiter :=
  { max_requests := max_requests, time_window := time_window, requests := [] }

/-- Embeds `RateLimiter.can_proceed` (lines 36-45): prune timestamps `t`
with `now - t >= time_window` (the filter keeps `now - req_time <
time_window`), then admit and append `now` iff the pruned count is below
`max_requests`.  Returns the boolean result together with the mutated
limiter. -/
def RateLimiter.can_proceed (rl : RateLimiter) (now : Int) : Bool × RateLimiter :=
  let kept := rl.requests.filter (fun t => now - t < rl.time_window)
  if (kept.length : Int) < rl.max_requests then
    (true, { rl with requests := kept ++ [now] })
  else
    (false, { rl with requests := kept })

/-- Embeds `RateLimiter.wait_time` (lines 47-52): `0` on an empty list,
otherwise `max(0, time_window - (now - min(requests)))`.  It is pure: the
limiter state is read, never written (the Python method has no assignment). -/
def RateLimiter.wait_time (rl : RateLimiter) (now : Int) : Int :=
  match rl.requests with
  | [] => 0
  | t :: ts => max 0 (rl.time_window - (now - ts.foldl min t))

/-- Repeated `can_proceed` calls at a fixed instant, collecting results
and threading the mutated limiter (models N quick-succession calls). -/
def RateLimiter.iterCanProceed (rl : RateLimiter) (now : Int) : Nat → List Bool × RateLimiter
  | 0 => ([], rl)
  | n + 1 =>
    let (b, rl1) := rl.can_proceed now
    let (bs, rl2) := rl1.iterCanProceed now n
    (b :: bs, rl2)

section RateLimiterLemmas

lemma filter_window_replicate (W t now : Int) (j : Nat) (h : now - t < W) :
    (List.replicate j t).filter (fun x => decide (now - x < W)) = List.replicate j t := by
  refine List.filter_eq_self.mpr ?_
  intro x hx
  rw [List.eq_of_mem_replicate hx]
  simpa using h

lemma can_proceed_replicate (N W t : Int) (j : Nat) (hW : 0 < W) (hj : (j : Int) < N) :
    RateLimiter.can_proceed ⟨N, W, List.replicate j t⟩ t =
      (true, ⟨N, W, List.replicate (j + 1) t⟩) := by
  simp only [RateLimiter.can_proceed]
  rw [filter_window_replicate W t t j (by omega)]
  simp [hj, List.replicate_succ' (n := j)]

lemma iterCanProceed_replicate (N W t : Int) (hW : 0 < W) :
    ∀ (k j : Nat), ((j + k : Nat) : Int) ≤ N →
      RateLimiter.iterCanProceed ⟨N, W, List.replicate j t⟩ t k =
        (List.replicate k true, ⟨N, W, List.replicate (j + k) t⟩) := by
  intro k
  induction k with
  | zero => intro j _; simp [RateLimiter.iterCanProceed]
  | succ k ih =>
    intro j hjk
    have hj : (j : Int) < N := by push_cast at hjk ⊢; omega
    have step := can_proceed_replicate N W t j hW hj
    have tail := ih (j + 1) (by push_cast at hjk ⊢; omega)
    simp only [RateLimiter.iterCanProceed, step, tail]
    have h1 : j + 1 + k = j + (k + 1) := by omega
    rw [h1]
    simp [List.replicate_succ]

lemma foldl_min_mem (a : Int) (l : List Int) : l.foldl min a ∈ a :: l := by
  induction l generalizing a with
  | nil => simp
  | cons b bs ih =>
    have h := ih (min a b)
    simp only [List.foldl_cons]
    rcases List.mem_cons.mp h with h1 | h1
    · rw [h1]
      rcases min_choice a b with hm | hm <;> rw [hm] <;> simp
    · simp [h1]

lemma foldl_min_le (l : List Int) : ∀ (a x : Int), x ∈ a :: l → l.foldl min a ≤ x := by
  induction l with
  | nil =>
    intro a x hx
    have hxa : x = a := by simpa using hx
    simp [hxa]
  | cons b bs ih =>
    intro a x hx
    have key : (b :: bs).foldl min a = bs.foldl min (min a b) := by simp [List.foldl_cons]
    have base : bs.foldl min (min a b) ≤ min a b := ih (min a b) (min a b) (by simp)
    rw [key]
    rcases List.mem_cons.mp hx with h1 | h1
    · rw [h1]
      exact le_trans base (min_le_left a b)
    · rcases List.mem_cons.mp h1 with h2 | h2
      · rw [h2]
        exact le_trans base (min_le_right a b)
      · exact ih (min a b) x (List.mem_cons_of_mem _ h2)

end RateLimiterLemmas

/-! ## The executor: `APIClient._make_request` and its collaborators -/

/-- A parsed response body: either a decoded JSON document (identified by
its source text) or raw text, matching what `_parse_response` /
`_parse_sync_response` can produce. -/
inductive Payload where
  | jsonVal (src : String)
  | textVal (src : String)
  deriving Repr, DecidableEq

/-- A raw transport-level response as delivered by `aiohttp` / `requests`
(before body parsing): HTTP status, whether the `Content-Type` header
contains `application/json`, whether the body text decodes as JSON, the
body text, and the response headers. -/
structure RawResponse where
  status : Int
  isJson : Bool
  decodes : Bool
  body : String
  headers : List (String × String)
  deriving Repr, DecidableEq

/-- Outcome of one transport call: a raw response, or a raised exception
(connection error, timeout, ...) carrying its `str(e)` message. -/
inductive Attempt where
  | resp (r : RawResponse)
  | throw (msg : String)
  deriving Repr, DecidableEq

/-- Embeds the dataclass `APIResponse` (lines 16-24).  `data` is `none`
exactly when the Python field holds `None`; `response_time` is in modelled
(integer) seconds. -/
structure APIResponse where
  status_code : Int
  data : Option Payload
  headers : List (String × String)
  response_time : Int
  success : Bool
  error : Option String := none
  deriving Repr, DecidableEq

/-- Stand-in for `str(e)` of the exception raised by
`await response.json()` on an undecodable body in `_parse_response`
(line 182); the verified properties depend only on it being some
message, never on its text. -/
def jsonDecodeErrorMsg : String := "unexpected content type or malformed JSON body"

/-- Embeds `APIClient._parse_response` (lines 178-184), the session/async
parser: a JSON content type forces `await response.json()`, which raises
(`none`) when the body does not decode; any other content type yields the
body text. -/
def parse_response (r : RawResponse) : Option Payload :=
  if r.isJson then
    if r.decodes then some (.jsonVal r.body) else none
  else
    some (.textVal r.body)

/-- Embeds `APIClient._parse_sync_response` (lines 186-195), the
no-session/sync parser: a JSON content type tries `response.json()` but
catches `JSONDecodeError` and falls back to the body text; any other
content type yields the body text.  It never raises. -/
def parse_sync_response (r : RawResponse) : Payload :=
  if r.isJson then
    if r.decodes then .jsonVal r.body else .textVal r.body
  else
    .textVal r.body

/-- Result of one iteration of the `try` body in `_make_request`: a clean
response (status, parsed data, headers) to be returned immediately, or a
caught exception message recorded as `last_error`. -/
inductive AttemptResult where
  | ok (status : Int) (data : Payload) (headers : List (String × String))
  | fail (msg : String)
  deriving Repr, DecidableEq

/-- One iteration of the `try` block of `_make_request` (lines 120-163)
given the transport outcome of this attempt.  `session = true` is the
`if self.session:` async branch (lines 123-141), where a parse failure
raises out of the `async with` block and is caught by the `except` on
line 162; `session = false` is the sync branch (lines 142-160), whose
parser never raises. -/
def process_attempt (session : Bool) (a : Attempt) : AttemptResult :=
  match a with
  | .throw m => .fail m
  | .resp r =>
    if session then
      match parse_response r with
      | some d => .ok r.status d r.headers
      | none => .fail jsonDecodeErrorMsg
    else
      .ok r.status (parse_sync_response r) r.headers

/-- The mutable execution context threaded through one `_make_request`
call: the client's rate limiter and the current clock. -/
structure ExecState where
  rl : RateLimiter
  now : Int
  deriving Repr, DecidableEq

/-- Embeds `APIClient._apply_rate_limit` (lines 97-102): call
`can_proceed()` (which prunes, and appends on admission); when it denies,
compute `wait_time()` on the pruned state and sleep that long if positive.
Returns the new context and the slept duration. -/
def apply_rate_limit (s : ExecState) : ExecState × Int :=
  let (ok, rl1) := s.rl.can_proceed s.now
  if ok then
    ({ rl := rl1, now := s.now }, 0)
  else
    let w := rl1.wait_time s.now
    if 0 < w then ({ rl := rl1, now := s.now + w }, w)
    else ({ rl := rl1, now := s.now }, 0)

/-- Output of one `_make_request` call together with its observable
trace: the returned `APIResponse`, the final execution context, the list
of backoff sleep durations (`await asyncio.sleep(2 ** attempt)`, line
166), and the number of transport calls performed. -/
structure RequestOut where
  resp : APIResponse
  state : ExecState
  backoffs : List Int
  calls : Nat
  deriving Repr, DecidableEq

/-- The retry loop of `_make_request` (lines 119-176), structured over the
remaining iteration count `fuel` of `for attempt in range(retries + 1)`,
with `i` the current value of `attempt`.  Each iteration applies the rate
limiter, performs one transport call, returns immediately on a clean
response (`success = status < 400`), and on a caught exception records
`last_error` and sleeps `2 ** attempt` iff `attempt < retries`.  When the
loop exhausts it builds the `status_code = 0` envelope of lines 169-176. -/
def request_loop (session : Bool) (retries : Nat) (att : Nat → Attempt) (start : Int) :
    Nat → Nat → ExecState → Option String → List Int → Nat → RequestOut
  | 0, _, s, lastError, bs, calls =>
    ⟨{ status_code := 0, data := none, headers := [], response_time := s.now - start,
       success := false, error := lastError }, s, bs, calls⟩
  | fuel + 1, i, s, _lastError, bs, calls =>
    let s1 := (apply_rate_limit s).1
    match process_attempt session (att i) with
    | .ok st d hd =>
      ⟨{ status_code := st, data := some d, headers := hd,
         response_time := s1.now - start, success := decide (st < 400), error := none },
       s1, bs, calls + 1⟩
    | .fail msg =>
      if i < retries then
        let d : Int := 2 ^ i
        request_loop session retries att start fuel (i + 1)
          { rl := s1.rl, now := s1.now + d } (some msg) (bs ++ [d]) (calls + 1)
      else
        request_loop session retries att start fuel (i + 1) s1 (some msg) bs (calls + 1)

/-- Embeds one call of `APIClient._make_request` (lines 104-176):
`start_time` is the entry clock, `last_error` starts as `None`, and the
loop runs `retries + 1` iterations from `attempt = 0`.  URL resolution
and header merging (lines 113-114) are modelled separately by `make_url`
since they do not affect the loop. -/
def make_request (session : Bool) (retries : Nat) (att : Nat → Attempt)
    (s0 : ExecState) : RequestOut :=
  request_loop session retries att s0.now (retries + 1) 0 s0 none [] 0

/-! ## URL resolution (lines 67 and 113) -/

/-- Python `base_url.rstrip('/')` (line 67): remove every trailing `/`. -/
def rstripSlash (s : String) : String :=
  ⟨(s.data.reverse.dropWhile (fun c => c = '/')).reverse⟩

/-- Python `endpoint.lstrip('/')` (line 113): remove every leading `/`. -/
def lstripSlash (s : String) : String :=
  ⟨s.data.dropWhile (fun c => c = '/')⟩

/-- Embeds the URL resolution of `_make_request`:
`self.base_url = base_url.rstrip('/')` at construction (line 67) composed
with `url = f"{self.base_url}/{endpoint.lstrip('/')}"` (line 113). -/
def make_url (base endpoint : String) : String :=
  rstripSlash base ++ "/" ++ lstripSlash endpoint

/-- Embeds line 71 of `APIClient.__init__`:
`self.rate_limiter = RateLimiter(rate_limit, 60)` — the window is the
constant 60 and the `rate_limit` argument is stored unchecked. -/
def APIClient.init_rate_limiter (rate_limit : Int) : RateLimiter :=
  RateLimiter.init rate_limit 60

/-! ## Loop lemmas for `request_loop` -/

lemma can_proceed_denied_requests (rl : RateLimiter) (now : Int)
    (h : (rl.can_proceed now).1 = false) :
    (rl.can_proceed now).2.requests = rl.requests.filter (fun x => now - x < rl.time_window) := by
  by_cases hc :
      ((rl.requests.filter (fun t => decide (now - t < rl.time_window))).length : Int) <
        rl.max_requests
  · simp [RateLimiter.can_proceed, hc] at h
  · simp [RateLimiter.can_proceed, hc]

lemma wait_time_nonneg (rl : RateLimiter) (now : Int) : 0 ≤ rl.wait_time now := by
  cases h : rl.requests with
  | nil => simp [RateLimiter.wait_time, h]
  | cons t ts => simp [RateLimiter.wait_time, h]

lemma request_loop_calls_mono (session : Bool) (retries : Nat) (att : Nat → Attempt)
    (start : Int) :
    ∀ (fuel i : Nat) (s : ExecState) (le : Option String) (bs : List Int) (c : Nat),
      c ≤ (request_loop session retries att start fuel i s le bs c).calls := by
  intro fuel
  induction fuel with
  | zero => intro i s le bs c; simp [request_loop]
  | succ fuel ih =>
    intro i s le bs c
    simp only [request_loop]
    cases hpa : process_attempt session (att i) with
    | ok st d hd => simp
    | fail msg =>
      by_cases hi : i < retries
      · simp only [hi, if_true]
        exact le_trans (Nat.le_succ c) (ih _ _ _ _ _)
      · simp only [hi, if_false]
        exact le_trans (Nat.le_succ c) (ih _ _ _ _ _)

lemma request_loop_calls_ge (session : Bool) (retries : Nat) (att : Nat → Attempt)
    (start : Int) :
    ∀ (fuel i : Nat) (s : ExecState) (le : Option String) (bs : List Int) (c : Nat),
      1 ≤ fuel → c + 1 ≤ (request_loop session retries att start fuel i s le bs c).calls := by
  intro fuel
  cases fuel with
  | zero => intro i s le bs c h; omega
  | succ fuel =>
    intro i s le bs c _
    simp only [request_loop]
    cases hpa : process_attempt session (att i) with
    | ok st d hd => simp
    | fail msg =>
      by_cases hi : i < retries
      · simp only [hi, if_true]
        exact request_loop_calls_mono session retries att start fuel _ _ _ _ _
      · simp only [hi, if_false]
        exact request_loop_calls_mono session retries att start fuel _ _ _ _ _

lemma request_loop_all_throw (session : Bool) (retries : Nat) (att : Nat → Attempt)
    (m : Nat → String) (start : Int) (hatt : ∀ j, att j = .throw (m j)) :
    ∀ (fuel : Nat), 1 ≤ fuel →
      ∀ (i : Nat) (s : ExecState) (le : Option String) (bs : List Int) (c : Nat),
      (request_loop session retries att start fuel i s le bs c).resp.status_code = 0 ∧
      (request_loop session retries att start fuel i s le bs c).resp.data = none ∧
      (request_loop session retries att start fuel i s le bs c).resp.headers = [] ∧
      (request_loop session retries att start fuel i s le bs c).resp.success = false ∧
      (request_loop session retries att start fuel i s le bs c).resp.error =
        some (m (i + (fuel - 1))) ∧
      (request_loop session retries att start fuel i s le bs c).calls = c + fuel := by
  intro fuel
  induction fuel with
  | zero => intro h; omega
  | succ fuel ih =>
    intro _ i s le bs c
    have hpa : process_attempt session (att i) = .fail (m i) := by rw [hatt i]; rfl
    simp only [request_loop, hpa]
    cases fuel with
    | zero =>
      by_cases hi : i < retries <;> simp [hi, request_loop]
    | succ fuel =>
      have step := ih (by omega) (i + 1)
      by_cases hi : i < retries
      · simp only [hi, if_true]
        refine ⟨(step _ _ _ _).1, (step _ _ _ _).2.1, (step _ _ _ _).2.2.1,
          (step _ _ _ _).2.2.2.1, ?_, ?_⟩
        · rw [(step _ _ _ _).2.2.2.2.1]
          congr 2
          omega
        · rw [(step _ _ _ _).2.2.2.2.2]
          omega
      · simp only [hi, if_false]
        refine ⟨(step _ _ _ _).1, (step _ _ _ _).2.1, (step _ _ _ _).2.2.1,
          (step _ _ _ _).2.2.2.1, ?_, ?_⟩
        · rw [(step _ _ _ _).2.2.2.2.1]
          congr 2
          omega
        · rw [(step _ _ _ _).2.2.2.2.2]
          omega

lemma process_attempt_ok_status (session : Bool) (a : Attempt) (st : Int) (d : Payload)
    (hd : List (String × String)) (h : process_attempt session a = .ok st d hd) :
    ∃ r : RawResponse, a = .resp r ∧ st = r.status := by
  cases a with
  | throw m => simp [process_attempt] at h
  | resp r =>
    refine ⟨r, rfl, ?_⟩
    cases session with
    | false =>
      simp only [process_attempt, Bool.false_eq_true, if_false, AttemptResult.ok.injEq] at h
      exact h.1.symm
    | true =>
      simp only [process_attempt, if_true] at h
      cases hp : parse_response r with
      | none => rw [hp] at h; cases h
      | some d0 =>
        rw [hp] at h
        simp only [AttemptResult.ok.injEq] at h
        exact h.1.symm

lemma process_attempt_wellformed (session : Bool) (r : RawResponse)
    (hwf : r.isJson = true → r.decodes = true) :
    ∃ d : Payload, process_attempt session (.resp r) = .ok r.status d r.headers := by
  cases session with
  | false => exact ⟨parse_sync_response r, rfl⟩
  | true =>
    cases hij : r.isJson with
    | false =>
      exact ⟨.textVal r.body, by simp [process_attempt, parse_response, hij]⟩
    | true =>
      exact ⟨.jsonVal r.body, by simp [process_attempt, parse_response, hij, hwf hij]⟩

lemma request_loop_envelope_invariant (session : Bool) (retries : Nat) (att : Nat → Attempt)
    (start : Int) (hstat : ∀ (i : Nat) (r : RawResponse), att i = .resp r →
      100 ≤ r.status ∧ r.status ≤ 599) :
    ∀ (fuel i : Nat) (s : ExecState) (le : Option String) (bs : List Int) (c : Nat),
      (1 ≤ fuel ∨ le ≠ none) →
      ((request_loop session retries att start fuel i s le bs c).resp.success = true →
        100 ≤ (request_loop session retries att start fuel i s le bs c).resp.status_code ∧
        (request_loop session retries att start fuel i s le bs c).resp.status_code ≤ 399 ∧
        (request_loop session retries att start fuel i s le bs c).resp.error = none) ∧
      ((request_loop session retries att start fuel i s le bs c).resp.status_code = 0 →
        (request_loop session retries att start fuel i s le bs c).resp.success = false ∧
        (request_loop session retries att start fuel i s le bs c).resp.error ≠ none) := by
  intro fuel
  induction fuel with
  | zero =>
    intro i s le bs c hle
    have hle' : le ≠ none := by
      rcases hle with h | h
      · omega
      · exact h
    simp [request_loop, hle']
  | succ fuel ih =>
    intro i s le bs c _
    simp only [request_loop]
    cases hpa : process_attempt session (att i) with
    | ok st d hd =>
      obtain ⟨r, hr, hst⟩ := process_attempt_ok_status session (att i) st d hd hpa
      have hrange := hstat i r hr
      subst hst
      dsimp only
      constructor
      · intro hsucc
        simp only [decide_eq_true_eq] at hsucc
        exact ⟨hrange.1, by omega, rfl⟩
      · intro h0
        omega
    | fail msg =>
      by_cases hi : i < retries
      · simp only [hi, if_true]
        exact ih (i + 1) _ (some msg) _ (c + 1) (Or.inr (by simp))
      · simp only [hi, if_false]
        exact ih (i + 1) _ (some msg) _ (c + 1) (Or.inr (by simp))

lemma request_loop_backoffs (session : Bool) (retries : Nat) (att : Nat → Attempt)
    (start : Int) :
    ∀ (fuel i : Nat) (s : ExecState) (le : Option String) (bs : List Int) (c : Nat),
      fuel + i = retries + 1 → 1 ≤ fuel →
      (request_loop session retries att start fuel i s le bs c).backoffs =
        bs ++ (List.range ((request_loop session retries att start fuel i s le bs c).calls
            - c - 1)).map (fun j => (2 : Int) ^ (i + j)) := by
  intro fuel
  induction fuel with
  | zero => intro i s le bs c _ h; omega
  | succ fuel ih =>
    intro i s le bs c hinv _
    simp only [request_loop]
    cases hpa : process_attempt session (att i) with
    | ok st d hd => simp
    | fail msg =>
      cases fuel with
      | zero =>
        have hi : ¬ i < retries := by omega
        simp [hi, request_loop]
      | succ fuel =>
        have hi : i < retries := by omega
        simp only [hi, if_true]
        have hrec := ih (i + 1)
          { rl := ((apply_rate_limit s).1).rl, now := ((apply_rate_limit s).1).now + 2 ^ i }
          (some msg) (bs ++ [(2 : Int) ^ i]) (c + 1) (by omega) (by omega)
        have hcge : c + 2 ≤ (request_loop session retries att start (fuel + 1) (i + 1)
            { rl := ((apply_rate_limit s).1).rl, now := ((apply_rate_limit s).1).now + 2 ^ i }
            (some msg) (bs ++ [(2 : Int) ^ i]) (c + 1)).calls :=
          request_loop_calls_ge session retries att start (fuel + 1) _ _ _ _ _ (by omega)
        rw [hrec]
        set cl := (request_loop session retries att start (fuel + 1) (i + 1)
          { rl := ((apply_rate_limit s).1).rl, now := ((apply_rate_limit s).1).now + 2 ^ i }
          (some msg) (bs ++ [(2 : Int) ^ i]) (c + 1)).calls with hcl
        have hsplit : cl - c - 1 = (cl - c - 2) + 1 := by omega
        rw [hsplit, List.range_succ_eq_map, List.map_cons, List.map_map]
        have harith : cl - (c + 1) - 1 = cl - c - 2 := by omega
        rw [harith]
        have hfun : (List.range (cl - c - 2)).map ((fun j => (2 : Int) ^ (i + j)) ∘ Nat.succ) =
            (List.range (cl - c - 2)).map (fun j => (2 : Int) ^ (i + 1 + j)) := by
          refine List.map_congr_left ?_
          intro j _
          simp only [Function.comp]
          congr 1
          omega
        rw [hfun]
        simp

lemma process_attempt_session_agnostic (a : Attempt)
    (h : ∀ r : RawResponse, a = .resp r → r.isJson = true → r.decodes = true) :
    process_attempt true a = process_attempt false a := by
  cases a with
  | throw m => rfl
  | resp r =>
    cases hij : r.isJson with
    | false =>
      simp [process_attempt, parse_response, parse_sync_response, hij]
    | true =>
      have hdec := h r rfl hij
      simp [process_attempt, parse_response, parse_sync_response, hij, hdec]

lemma request_loop_session_eq (retries : Nat) (att : Nat → Attempt) (start : Int)
    (h : ∀ (i : Nat) (r : RawResponse), att i = .resp r → r.isJson = true → r.decodes = true) :
    ∀ (fuel i : Nat) (s : ExecState) (le : Option String) (bs : List Int) (c : Nat),
      request_loop true retries att start fuel i s le bs c =
        request_loop false retries att start fuel i s le bs c := by
  intro fuel
  induction fuel with
  | zero => intro i s le bs c; rfl
  | succ fuel ih =>
    intro i s le bs c
    simp only [request_loop]
    rw [process_attempt_session_agnostic (att i) (fun r hr => h i r hr)]
    cases process_attempt false (att i) with
    | ok st d hd => rfl
    | fail msg =>
      by_cases hi : i < retries
      · simp only [hi, if_true, ih]
      · simp only [hi, if_false, ih]

/-! ## String lemmas for URL resolution -/

lemma head_dropWhileSlash_ne (l : List Char) :
    (l.dropWhile (fun c => c = '/')).head? ≠ some '/' := by
  induction l with
  | nil => simp
  | cons a l ih =>
    by_cases ha : a = '/'
    · simpa [List.dropWhile_cons, ha] using ih
    · simp [List.dropWhile_cons, ha]

lemma rstripSlash_append_slash (s : String) : rstripSlash (s ++ "/") = rstripSlash s := by
  simp only [rstripSlash, String.data_append]
  congr 1
  simp [List.reverse_append, List.dropWhile_cons]

lemma lstripSlash_slash_append (s : String) : lstripSlash ("/" ++ s) = lstripSlash s := rfl

lemma rstripSlash_no_trailing (s : String) :
    (rstripSlash s).data.getLast? ≠ some '/' := by
  show ((s.data.reverse.dropWhile (fun c => c = '/')).reverse).getLast? ≠ some '/'
  rw [List.getLast?_reverse]
  exact head_dropWhileSlash_ne _

lemma lstripSlash_no_leading (s : String) :
    (lstripSlash s).data.head? ≠ some '/' :=
  head_dropWhileSlash_ne s.data

lemma can_proceed_admitted_requests (rl : RateLimiter) (now : Int)
    (h : (rl.can_proceed now).1 = true) :
    (rl.can_proceed now).2.requests =
      rl.requests.filter (fun x => now - x < rl.time_window) ++ [now] := by
  by_cases hc :
      ((rl.requests.filter (fun t => decide (now - t < rl.time_window))).length : Int) <
        rl.max_requests
  · simp [RateLimiter.can_proceed, hc]
  · simp [RateLimiter.can_proceed, hc] at h

/-! ## The claims -/

/-- C1: a transport that delivers a well-formed HTTP response (its declared
content type, if structured, actually decodes) on the first attempt is
called exactly once regardless of `retries`, and the envelope carries the
response status, `success = (status < 400)`, and an unset `error`. -/
theorem C1_no_retry_on_remote_error (session : Bool) (retries : Nat) (att : Nat → Attempt)
    (s0 : ExecState) (r : RawResponse) (h0 : att 0 = .resp r)
    (hwf : r.isJson = true → r.decodes = true) :
    (make_request session retries att s0).calls = 1 ∧
    (make_request session retries att s0).resp.status_code = r.status ∧
    (make_request session retries att s0).resp.success = decide (r.status < 400) ∧
    (make_request session retries att s0).resp.error = none := by
  obtain ⟨d, hp⟩ := process_attempt_wellformed session r hwf
  rw [← h0] at hp
  simp [make_request, request_loop, hp]

/-- C1 witness: an HTTP 500 text response with `retries = 5` on the async
path: one transport call, `status_code = 500`, `success = false`, no error. -/
theorem C1_witness :
    (make_request true 5 (fun _ => .resp ⟨500, false, true, "server error", []⟩)
        ⟨⟨100, 60, []⟩, 0⟩).calls = 1 ∧
    (make_request true 5 (fun _ => .resp ⟨500, false, true, "server error", []⟩)
        ⟨⟨100, 60, []⟩, 0⟩).resp.status_code = 500 ∧
    (make_request true 5 (fun _ => .resp ⟨500, false, true, "server error", []⟩)
        ⟨⟨100, 60, []⟩, 0⟩).resp.success = decide ((500 : Int) < 400) ∧
    (make_request true 5 (fun _ => .resp ⟨500, false, true, "server error", []⟩)
        ⟨⟨100, 60, []⟩, 0⟩).resp.error = none :=
  C1_no_retry_on_remote_error true 5 (fun _ => .resp ⟨500, false, true, "server error", []⟩)
    ⟨⟨100, 60, []⟩, 0⟩ ⟨500, false, true, "server error", []⟩ rfl (by decide)

/-- C4: a transport that throws on every attempt is called exactly
`retries + 1` times and the final envelope is
`status_code = 0`, no payload, empty headers, `success = false`, and
`error` set to the message of the last attempt. -/
theorem C4_exhaustion (session : Bool) (retries : Nat) (att : Nat → Attempt)
    (m : Nat → String) (s0 : ExecState) (hatt : ∀ j, att j = .throw (m j)) :
    (make_request session retries att s0).resp.status_code = 0 ∧
    (make_request session retries att s0).resp.data = none ∧
    (make_request session retries att s0).resp.headers = [] ∧
    (make_request session retries att s0).resp.success = false ∧
    (make_request session retries att s0).resp.error = some (m retries) ∧
    (make_request session retries att s0).calls = retries + 1 := by
  have h := request_loop_all_throw session retries att m s0.now hatt (retries + 1)
    (by omega) 0 s0 none [] 0
  simpa using h

/-- C4 witness: three always-throwing attempts with `retries = 2`. -/
theorem C4_witness :
    (make_request false 2 (fun _ => .throw "connection timed out")
        ⟨⟨100, 60, []⟩, 0⟩).resp.status_code = 0 ∧
    (make_request false 2 (fun _ => .throw "connection timed out")
        ⟨⟨100, 60, []⟩, 0⟩).resp.data = none ∧
    (make_request false 2 (fun _ => .throw "connection timed out")
        ⟨⟨100, 60, []⟩, 0⟩).resp.headers = [] ∧
    (make_request false 2 (fun _ => .throw "connection timed out")
        ⟨⟨100, 60, []⟩, 0⟩).resp.success = false ∧
    (make_request false 2 (fun _ => .throw "connection timed out")
        ⟨⟨100, 60, []⟩, 0⟩).resp.error = some "connection timed out" ∧
    (make_request false 2 (fun _ => .throw "connection timed out")
        ⟨⟨100, 60, []⟩, 0⟩).calls = 2 + 1 :=
  C4_exhaustion false 2 (fun _ => .throw "connection timed out")
    (fun _ => "connection timed out") ⟨⟨100, 60, []⟩, 0⟩ (fun _ => rfl)

/-- C5: under a transport that only delivers genuine HTTP statuses
(100..599), every envelope satisfies: `success = true` implies
`status_code` in [100, 399] and `error` unset; `status_code = 0` implies
`success = false` and `error` set. -/
theorem C5_envelope_invariant (session : Bool) (retries : Nat) (att : Nat → Attempt)
    (s0 : ExecState)
    (hstat : ∀ (i : Nat) (r : RawResponse), att i = .resp r →
      100 ≤ r.status ∧ r.status ≤ 599) :
    ((make_request session retries att s0).resp.success = true →
      100 ≤ (make_request session retries att s0).resp.status_code ∧
      (make_request session retries att s0).resp.status_code ≤ 399 ∧
      (make_request session retries att s0).resp.error = none) ∧
    ((make_request session retries att s0).resp.status_code = 0 →
      (make_request session retries att s0).resp.success = false ∧
      (make_request session retries att s0).resp.error ≠ none) := by
  exact request_loop_envelope_invariant session retries att s0.now hstat (retries + 1) 0 s0
    none [] 0 (Or.inl (by omega))

/-- C5 witness: a 500 response on the sync path with `retries = 0`. -/
theorem C5_witness :
    ((make_request false 0 (fun _ => .resp ⟨500, false, true, "e", []⟩)
        ⟨⟨100, 60, []⟩, 0⟩).resp.success = true →
      100 ≤ (make_request false 0 (fun _ => .resp ⟨500, false, true, "e", []⟩)
        ⟨⟨100, 60, []⟩, 0⟩).resp.status_code ∧
      (make_request false 0 (fun _ => .resp ⟨500, false, true, "e", []⟩)
        ⟨⟨100, 60, []⟩, 0⟩).resp.status_code ≤ 399 ∧
      (make_request false 0 (fun _ => .resp ⟨500, false, true, "e", []⟩)
        ⟨⟨100, 60, []⟩, 0⟩).resp.error = none) ∧
    ((make_request false 0 (fun _ => .resp ⟨500, false, true, "e", []⟩)
        ⟨⟨100, 60, []⟩, 0⟩).resp.status_code = 0 →
      (make_request false 0 (fun _ => .resp ⟨500, false, true, "e", []⟩)
        ⟨⟨100, 60, []⟩, 0⟩).resp.success = false ∧
      (make_request false 0 (fun _ => .resp ⟨500, false, true, "e", []⟩)
        ⟨⟨100, 60, []⟩, 0⟩).resp.error ≠ none) :=
  C5_envelope_invariant false 0 (fun _ => .resp ⟨500, false, true, "e", []⟩)
    ⟨⟨100, 60, []⟩, 0⟩ (fun i r h => by cases h; exact ⟨by norm_num, by norm_num⟩)

/-- C6: the backoff sleep trace of any run is exactly
`2^0, 2^1, ..., 2^(k-1)` where `k + 1` is the number of transport calls:
after the failed attempt with index `i < retries` the executor sleeps
`2^i` seconds, and no backoff follows the final attempt or a
transport-level success. -/
theorem C6_exponential_backoff (session : Bool) (retries : Nat) (att : Nat → Attempt)
    (s0 : ExecState) :
    (make_request session retries att s0).backoffs =
      (List.range ((make_request session retries att s0).calls - 1)).map
        (fun j => (2 : Int) ^ j) := by
  have h := request_loop_backoffs session retries att s0.now (retries + 1) 0 s0 none [] 0
    (by omega) (by omega)
  simpa using h

/-- C9: URL resolution joins the stripped base and stripped path with a
single `/`: appending a trailing slash to the base or prepending a leading
slash to the path never changes the result, the stripped base never ends
in `/`, the stripped path never starts with `/`, and the two spec
examples resolve to `http://host:8080/users`. -/
theorem C9_url_joining (base endpoint : String) :
    make_url base endpoint = rstripSlash base ++ "/" ++ lstripSlash endpoint ∧
    make_url (base ++ "/") endpoint = make_url base endpoint ∧
    make_url base ("/" ++ endpoint) = make_url base endpoint ∧
    (rstripSlash base).data.getLast? ≠ some '/' ∧
    (lstripSlash endpoint).data.head? ≠ some '/' ∧
    make_url "http://host:8080/" "/users" = "http://host:8080/users" ∧
    make_url "http://host:8080" "/users" = "http://host:8080/users" := by
  refine ⟨rfl, ?_, ?_, rstripSlash_no_trailing base, lstripSlash_no_leading endpoint,
    by decide, by decide⟩
  · simp only [make_url, rstripSlash_append_slash]
  · simp only [make_url, lstripSlash_slash_append]

/-- C7 counterexample: a 200 response declared `application/json` whose
body does not decode.  The async (session) path treats the parse failure
as a transport error and retries (2 calls, final envelope
`status_code = 0` with `error` set), while the sync path returns the 200
envelope with the raw text and no error after a single call — the two
paths disagree on status_code, error, and attempt count. -/
theorem C7_counterexample :
    (make_request true 1 (fun _ => .resp ⟨200, true, false, "not json", []⟩)
        ⟨⟨100, 60, []⟩, 0⟩).resp.status_code = 0 ∧
    (make_request false 1 (fun _ => .resp ⟨200, true, false, "not json", []⟩)
        ⟨⟨100, 60, []⟩, 0⟩).resp.status_code = 200 ∧
    (make_request true 1 (fun _ => .resp ⟨200, true, false, "not json", []⟩)
        ⟨⟨100, 60, []⟩, 0⟩).calls = 2 ∧
    (make_request false 1 (fun _ => .resp ⟨200, true, false, "not json", []⟩)
        ⟨⟨100, 60, []⟩, 0⟩).calls = 1 ∧
    (make_request true 1 (fun _ => .resp ⟨200, true, false, "not json", []⟩)
        ⟨⟨100, 60, []⟩, 0⟩).resp.error = some jsonDecodeErrorMsg ∧
    (make_request false 1 (fun _ => .resp ⟨200, true, false, "not json", []⟩)
        ⟨⟨100, 60, []⟩, 0⟩).resp.success = true ∧
    (make_request true 1 (fun _ => .resp ⟨200, true, false, "not json", []⟩)
        ⟨⟨100, 60, []⟩, 0⟩).resp.success = false := by
  decide

/-- C7 amended: as long as no transport outcome is a response whose
declared content type is structured but whose body fails to decode, the
async and sync paths produce identical results (envelope, final state,
backoff trace, and attempt count); on such a malformed-body response the
paths diverge as shown by the counterexample. -/
theorem C7_amended_path_equivalence (retries : Nat) (att : Nat → Attempt) (s0 : ExecState)
    (h : ∀ (i : Nat) (r : RawResponse), att i = .resp r → r.isJson = true → r.decodes = true) :
    make_request true retries att s0 = make_request false retries att s0 :=
  request_loop_session_eq retries att s0.now h (retries + 1) 0 s0 none [] 0

/-- C7 amended witness: a decodable JSON 200 response, `retries = 2`. -/
theorem C7_amended_witness :
    make_request true 2 (fun _ => .resp ⟨200, true, true, "null", []⟩) ⟨⟨100, 60, []⟩, 0⟩ =
      make_request false 2 (fun _ => .resp ⟨200, true, true, "null", []⟩)
        ⟨⟨100, 60, []⟩, 0⟩ :=
  C7_amended_path_equivalence 2 (fun _ => .resp ⟨200, true, true, "null", []⟩)
    ⟨⟨100, 60, []⟩, 0⟩ (fun i r hr => by cases hr; intro hj; rfl)

/-- C2: from a fresh limiter with `0 < max_requests = N` and
`0 < window_seconds = W`, `N` calls at one instant all admit, the
`(N+1)`th call at that instant denies and leaves the state unchanged,
a call after the clock advanced by at least `W` admits again, and in
general `can_proceed` leaves exactly the pruned timestamps plus `now`
on admission, and exactly the pruned timestamps on denial. -/
theorem C2_sliding_window_admission (N W t adv now0 : Int) (n : Nat) (rl0 : RateLimiter)
    (hN : 0 < N) (hW : 0 < W) (hn : (n : Int) = N) (hadv : t + W ≤ adv) :
    (RateLimiter.iterCanProceed (RateLimiter.init N W) t n).1 = List.replicate n true ∧
    RateLimiter.can_proceed (RateLimiter.iterCanProceed (RateLimiter.init N W) t n).2 t =
      (false, (RateLimiter.iterCanProceed (RateLimiter.init N W) t n).2) ∧
    (RateLimiter.can_proceed
      (RateLimiter.iterCanProceed (RateLimiter.init N W) t n).2 adv).1 = true ∧
    ((rl0.can_proceed now0).1 = true →
      (rl0.can_proceed now0).2.requests =
        rl0.requests.filter (fun x => now0 - x < rl0.time_window) ++ [now0]) ∧
    ((rl0.can_proceed now0).1 = false →
      (rl0.can_proceed now0).2.requests =
        rl0.requests.filter (fun x => now0 - x < rl0.time_window)) := by
  have hrun : RateLimiter.iterCanProceed (RateLimiter.init N W) t n =
      (List.replicate n true, ⟨N, W, List.replicate n t⟩) := by
    have h := iterCanProceed_replicate N W t hW n 0 (by push_cast; omega)
    simpa [RateLimiter.init] using h
  refine ⟨by rw [hrun], ?_, ?_, can_proceed_admitted_requests rl0 now0,
    can_proceed_denied_requests rl0 now0⟩
  · rw [hrun]
    simp only [RateLimiter.can_proceed]
    rw [filter_window_replicate W t t n (by omega)]
    simp [hn]
  · rw [hrun]
    simp only [RateLimiter.can_proceed]
    have hfil : (List.replicate n t).filter (fun x => decide (adv - x < W)) = [] := by
      refine List.filter_eq_nil_iff.mpr ?_
      intro a ha
      rw [List.eq_of_mem_replicate ha]
      simp only [decide_eq_true_eq]
      omega
    rw [hfil]
    simp [hN]

/-- C2 witness: `N = 2`, `W = 60`, two calls at `t = 0`, the third denied,
admitted again at `t = 60`; the recording laws applied to the concrete
state with one fresh timestamp. -/
theorem C2_witness :
    (RateLimiter.iterCanProceed (RateLimiter.init 2 60) 0 2).1 = List.replicate 2 true ∧
    RateLimiter.can_proceed (RateLimiter.iterCanProceed (RateLimiter.init 2 60) 0 2).2 0 =
      (false, (RateLimiter.iterCanProceed (RateLimiter.init 2 60) 0 2).2) ∧
    (RateLimiter.can_proceed
      (RateLimiter.iterCanProceed (RateLimiter.init 2 60) 0 2).2 60).1 = true ∧
    ((RateLimiter.can_proceed ⟨1, 60, [0]⟩ 5).1 = true →
      (RateLimiter.can_proceed ⟨1, 60, [0]⟩ 5).2.requests =
        [0].filter (fun x => 5 - x < (60 : Int)) ++ [5]) ∧
    ((RateLimiter.can_proceed ⟨1, 60, [0]⟩ 5).1 = false →
      (RateLimiter.can_proceed ⟨1, 60, [0]⟩ 5).2.requests =
        [0].filter (fun x => 5 - x < (60 : Int))) :=
  C2_sliding_window_admission 2 60 0 60 5 2 ⟨1, 60, [0]⟩ (by norm_num) (by norm_num)
    (by norm_num) (by norm_num)

/-- C3 counterexample: the source performs no constructor validation and
defines no ConfigurationError anywhere — `RateLimiter(10, 0)` is
constructed normally (no error is raised) and is fully operational:
`can_proceed` at time 5 admits and records the timestamp.  Likewise
`APIClient.__init__` accepts any `rate_limit` and always builds its
limiter with the constant window 60. -/
theorem C3_counterexample :
    RateLimiter.init 10 0 =
      { max_requests := 10, time_window := 0, requests := [] } ∧
    (RateLimiter.can_proceed (RateLimiter.init 10 0) 5).1 = true ∧
    (RateLimiter.can_proceed (RateLimiter.init 10 0) 5).2 =
      { max_requests := 10, time_window := 0, requests := [5] } ∧
    APIClient.init_rate_limiter (-3) =
      { max_requests := -3, time_window := 60, requests := [] } := by
  decide

/-- C3 amended: construction with `window_seconds <= 0` is accepted
without any error (no validation exists in the source), and such a
limiter is operational: every past timestamp is pruned immediately, so
`can_proceed` admits whenever `0 < max_requests`. -/
theorem C3_amended_no_validation (m w now : Int) (ts : List Int)
    (hw : w ≤ 0) (hm : 0 < m) (hts : ∀ t0 ∈ ts, t0 ≤ now) :
    RateLimiter.init m w = { max_requests := m, time_window := w, requests := [] } ∧
    RateLimiter.can_proceed ⟨m, w, ts⟩ now = (true, ⟨m, w, [now]⟩) := by
  refine ⟨rfl, ?_⟩
  have hfil : ts.filter (fun x => decide (now - x < w)) = [] := by
    refine List.filter_eq_nil_iff.mpr ?_
    intro a ha
    have := hts a ha
    simp only [decide_eq_true_eq]
    omega
  simp only [RateLimiter.can_proceed, hfil]
  simp [hm]

/-- C3 amended witness: window `0`, two stale timestamps, admission at 0. -/
theorem C3_amended_witness :
    RateLimiter.init 2 0 = { max_requests := 2, time_window := 0, requests := [] } ∧
    RateLimiter.can_proceed ⟨2, 0, [-3, -1]⟩ 0 = (true, ⟨2, 0, [0]⟩) :=
  C3_amended_no_validation 2 0 0 [-3, -1] (by norm_num) (by norm_num) (by decide)

/-- C8: `wait_time` returns 0 with no recorded timestamps, otherwise
`max 0 (window - (now - oldest))` where `oldest` is the minimum recorded
timestamp (it is a member and a lower bound of the list); it takes the
state only as input (purity is structural in the embedding), and as the
clock advances with no admissions its value never increases. -/
theorem C8_wait_time_advisory (m w now now' t : Int) (ts reqs : List Int)
    (hmono : now ≤ now') :
    RateLimiter.wait_time ⟨m, w, []⟩ now = 0 ∧
    RateLimiter.wait_time ⟨m, w, t :: ts⟩ now = max 0 (w - (now - ts.foldl min t)) ∧
    ts.foldl min t ∈ t :: ts ∧
    (∀ x ∈ t :: ts, ts.foldl min t ≤ x) ∧
    RateLimiter.wait_time ⟨m, w, reqs⟩ now' ≤ RateLimiter.wait_time ⟨m, w, reqs⟩ now := by
  refine ⟨rfl, rfl, foldl_min_mem t ts, foldl_min_le ts t, ?_⟩
  cases reqs with
  | nil => simp [RateLimiter.wait_time]
  | cons a l =>
    simp only [RateLimiter.wait_time]
    exact max_le_max le_rfl (by omega)

/-- C8 witness: window 60, timestamps `[3, 7]`, clock moving 10 → 20. -/
theorem C8_witness :
    RateLimiter.wait_time ⟨5, 60, []⟩ 10 = 0 ∧
    RateLimiter.wait_time ⟨5, 60, (3 : Int) :: [7]⟩ 10 =
      max 0 (60 - (10 - ([7] : List Int).foldl min 3)) ∧
    ([7] : List Int).foldl min 3 ∈ (3 : Int) :: [7] ∧
    (∀ x ∈ (3 : Int) :: [7], ([7] : List Int).foldl min 3 ≤ x) ∧
    RateLimiter.wait_time ⟨5, 60, [3, 7]⟩ 20 ≤ RateLimiter.wait_time ⟨5, 60, [3, 7]⟩ 10 :=
  C8_wait_time_advisory 5 60 10 20 3 [7] [3, 7] (by norm_num)

/-- C10: when `can_proceed` denies, `_apply_rate_limit` keeps only the
pruned timestamps (nothing is recorded), sleeps exactly the advisory
`wait_time` of the pruned state, and the executor then performs the
transport attempt anyway (at least one call always happens, with no
second admission check).  Concretely, with `max_requests = 0` and a
60-second window, a run with `retries = 1` performs 2 transport calls
between times 0 and 1 — inside a single window — while the limiter
records none of them, exceeding `max_requests`. -/
theorem C10_denied_attempt_uncounted (s : ExecState) (session : Bool) (retries : Nat)
    (att : Nat → Attempt) (hdeny : (s.rl.can_proceed s.now).1 = false) :
    (apply_rate_limit s).1.rl = (s.rl.can_proceed s.now).2 ∧
    (apply_rate_limit s).1.rl.requests =
      s.rl.requests.filter (fun x => s.now - x < s.rl.time_window) ∧
    (apply_rate_limit s).1.now =
      s.now + (s.rl.can_proceed s.now).2.wait_time s.now ∧
    (apply_rate_limit s).2 = (s.rl.can_proceed s.now).2.wait_time s.now ∧
    1 ≤ (make_request session retries att s).calls ∧
    (make_request false 1 (fun _ => .throw "connection refused")
      ⟨⟨0, 60, []⟩, 0⟩).calls = 2 ∧
    (make_request false 1 (fun _ => .throw "connection refused")
      ⟨⟨0, 60, []⟩, 0⟩).state.rl.requests = [] ∧
    (make_request false 1 (fun _ => .throw "connection refused")
      ⟨⟨0, 60, []⟩, 0⟩).state.now = 1 := by
  rcases hcp : s.rl.can_proceed s.now with ⟨b, rl1⟩
  rw [hcp] at hdeny
  simp only at hdeny
  subst hdeny
  have harl : apply_rate_limit s = ({ rl := rl1, now := s.now + rl1.wait_time s.now },
      rl1.wait_time s.now) := by
    simp only [apply_rate_limit, hcp]
    by_cases hw : 0 < rl1.wait_time s.now
    · simp [hw]
    · have h0 : rl1.wait_time s.now = 0 := by
        have := wait_time_nonneg rl1 s.now
        omega
      simp [hw, h0]
  have hreq := can_proceed_denied_requests s.rl s.now
  rw [hcp] at hreq
  refine ⟨by rw [harl], ?_, by rw [harl], by rw [harl], ?_, by decide, by decide, by decide⟩
  · rw [harl]
    exact hreq rfl
  · have h := request_loop_calls_ge session retries att s.now (retries + 1) 0 s none [] 0
      (by omega)
    simpa [make_request] using h

/-- C10 witness: the denied state `max_requests = 0`, empty list, time 0
on the sync path with `retries = 0` and a throwing transport. -/
theorem C10_witness :
    (apply_rate_limit ⟨⟨0, 60, []⟩, 0⟩).1.rl =
      (RateLimiter.can_proceed ⟨0, 60, []⟩ 0).2 ∧
    (apply_rate_limit ⟨⟨0, 60, []⟩, 0⟩).1.rl.requests =
      [].filter (fun x => 0 - x < (60 : Int)) ∧
    (apply_rate_limit ⟨⟨0, 60, []⟩, 0⟩).1.now =
      0 + RateLimiter.wait_time (RateLimiter.can_proceed ⟨0, 60, []⟩ 0).2 0 ∧
    (apply_rate_limit ⟨⟨0, 60, []⟩, 0⟩).2 =
      RateLimiter.wait_time (RateLimiter.can_proceed ⟨0, 60, []⟩ 0).2 0 ∧
    1 ≤ (make_request false 0 (fun _ => .throw "x") ⟨⟨0, 60, []⟩, 0⟩).calls ∧
    (make_request false 1 (fun _ => .throw "connection refused")
      ⟨⟨0, 60, []⟩, 0⟩).calls = 2 ∧
    (make_request false 1 (fun _ => .throw "connection refused")
      ⟨⟨0, 60, []⟩, 0⟩).state.rl.requests = [] ∧
    (make_request false 1 (fun _ => .throw "connection refused")
      ⟨⟨0, 60, []⟩, 0⟩).state.now = 1 :=
  C10_denied_attempt_uncounted ⟨⟨0, 60, []⟩, 0⟩ false 0 (fun _ => .throw "x") (by decide)
